import Mathlib

/-!
Shallow embedding of the manipulator-map runtime of
`blender/windowmanager/manipulators/intern/wm_manipulator_map.c`
(src/unnamed/part_001): the per-region manipulator map, its draw-preparation
pipeline, hit testing (2D priority and two-pass 3D picking), the interaction
state machine (highlight / modal / select-all) and the deferred type-update
flush.

Manipulators are identified by natural-number ids into a map-owned pool
(`manips : Nat -> Manipulator`), mirroring the C pointers.  External
collaborators (type callbacks, GPU selection, operator invocation, cursor and
redraw requests) do not belong to this core; their invocations are recorded as
`Effect` values and their observable answers are supplied as oracle fields or
function parameters, following the capability interface in the spec.
-/

namespace WManip

/-- Per-manipulator interaction state bits (`WM_MANIPULATOR_STATE_HIGHLIGHT`,
`_MODAL`, `_SELECT`), one Boolean per bit. -/
structure MState where
  highlight : Bool := false
  modal : Bool := false
  select : Bool := false
deriving DecidableEq, Repr

/-- `wmManipulator`: per-instance interaction state, an optional bound operator
descriptor (`op_data.type` non-null), optional interaction data, and presence
flags for the optional type callbacks.  `visible_result` is Modelled from the
spec: the tri-state result of `wm_manipulator_is_visible` (a function of this
repository outside src/): 0 = not visible, else a bitmask of the
update-visible and draw-visible bits below.  `parent_mgroup` is the back
reference to the owning group (index into the map's group list). -/
structure Manipulator where
  name : String := ""
  flag_hidden : Bool := false
  state : MState := {}
  highlight_part : Nat := 0
  interaction_data : Bool := false
  op_data_type : Bool := false
  has_invoke : Bool := false
  has_modal : Bool := false
  has_custom_modal : Bool := false
  has_select : Bool := false
  has_cursor_get : Bool := false
  cursor_value : Int := 0
  visible_result : Nat := 0
  parent_mgroup : Nat := 0
deriving DecidableEq, Repr

/-- Modelled from the spec: draw-visibility classification bit
"visible-for-update-only" of `wm_manipulator_is_visible`. -/
def WM_MANIPULATOR_IS_VISIBLE_UPDATE : Nat := 1

/-- Modelled from the spec: draw-visibility classification bit
"visible-for-draw" of `wm_manipulator_is_visible`. -/
def WM_MANIPULATOR_IS_VISIBLE_DRAW : Nat := 2

/-- `wmManipulatorGroup` together with the flags and optional callbacks of its
`wmManipulatorGroupType`.  `poll` is the optional poll callback: `none` means
the type declares no poll (treated as visible), `some b` is the callback's
answer for the current context.  `visible_in_step` is Modelled from the spec:
the draw-step visibility filter `wm_manipulatorgroup_is_visible_in_drawstep`.
`test2d` is Modelled from the spec: the outcome of the group's own 2D
intersection test `wm_manipulatorgroup_find_intersected_mainpulator`
(manipulator id and part), a capability outside src/. -/
structure MGroup where
  manipulators : List Nat := []
  flag_is_3d : Bool := false
  flag_select : Bool := false
  flag_depth_3d : Bool := false
  flag_draw_modal_all : Bool := false
  poll : Option Bool := none
  has_refresh : Bool := false
  has_draw_prepare : Bool := false
  visible_in_step : Int → Bool := fun _ => true
  test2d : Option (Nat × Nat) := none

instance : Inhabited MGroup := ⟨{}⟩

/-- `MANIPULATORMAP_REFRESH` bit of `eManipulatorMapUpdateFlags`. -/
def MANIPULATORMAP_REFRESH : Nat := 1

/-- `wmManipulatorMap`: the per-region map with its interaction context
(`mmap_context`).  `nmanips` bounds the ids of the manipulators owned by this
map; `manips` is the pool the id-pointers resolve through.  `selected` is
`none` when the C selected array pointer is NULL; `selected_len` is the
separately tracked length field. -/
structure MMap where
  nmanips : Nat := 0
  manips : Nat → Manipulator := fun _ => {}
  groups : List MGroup := []
  highlight : Option Nat := none
  modal : Option Nat := none
  selected : Option (List Nat) := none
  selected_len : Nat := 0
  update_flag : Nat := 0

instance : Inhabited MMap := ⟨{}⟩

/-- Requests issued to external collaborators (cursor, redraw, event queue,
operator system, type callbacks); recorded rather than performed. -/
inductive Effect where
  | cursorSet (c : Int)
  | cursorStd
  | regionRedraw
  | mousemoveAdd
  | grabEnable
  | grabDisable
  | invokeHook (i : Nat)
  | operatorCall (i : Nat)
  | selectHook (i : Nat)
  | groupInitEv (g : Nat)
  | groupRefreshEv (g : Nat)
  | groupDrawPrepareEv (g : Nat)
  | manipUpdateEv (i : Nat) (force : Bool)
  | drawManip (i : Nat)
deriving DecidableEq, Repr

/-- Update the pool entry of manipulator `i` (a mutation through the C
pointer). -/
def updateManip (s : MMap) (i : Nat) (f : Manipulator → Manipulator) : MMap :=
  { s with manips := fun j => if j = i then f (s.manips j) else s.manips j }

/-- `WM_manipulatormap_tag_refresh` (null map is the caller's `none`). -/
def WM_manipulatormap_tag_refresh (s : MMap) : MMap :=
  { s with update_flag := s.update_flag ||| MANIPULATORMAP_REFRESH }

/-- `manipulatormap_tag_updated`: `update_flag = 0`. -/
def manipulatormap_tag_updated (s : MMap) : MMap :=
  { s with update_flag := 0 }

/-! ## Highlight -/

/-- The guarding condition of `wm_manipulatormap_highlight_set`:
`(mpr != mmap->mmap_context.highlight) || (mpr && part != mpr->highlight_part)`. -/
def highlightDiffers (s : MMap) (mpr : Option Nat) (part : Nat) : Bool :=
  (mpr != s.highlight) ||
    (match mpr with
     | some i => part != (s.manips i).highlight_part
     | none => false)

/-- Clearing of the previous highlight: state bit and part. -/
def clearHighlightBit (m : Manipulator) : Manipulator :=
  { m with state := { m.state with highlight := false }, highlight_part := 0 }

/-- Installing the new highlight: state bit and part. -/
def setHighlightBit (part : Nat) (m : Manipulator) : Manipulator :=
  { m with state := { m.state with highlight := true }, highlight_part := part }

/-- `wm_manipulatormap_highlight_set(mmap, C, mpr, part)`.  `hasC` is whether
the `bContext *C` argument is non-null; cursor and redraw requests are
returned as effects. -/
def wm_manipulatormap_highlight_set (s : MMap) (hasC : Bool) (mpr : Option Nat)
    (part : Nat) : MMap × List Effect :=
  if highlightDiffers s mpr part then
    let s1 := match s.highlight with
      | some h => updateManip s h clearHighlightBit
      | none => s
    let s2 := { s1 with highlight := mpr }
    match mpr with
    | some i =>
      let s3 := updateManip s2 i (setHighlightBit part)
      let evCursor :=
        if hasC && (s3.manips i).has_cursor_get then
          [Effect.cursorSet (s3.manips i).cursor_value]
        else []
      let evRedraw := if hasC then [Effect.regionRedraw] else []
      (s3, evCursor ++ evRedraw)
    | none =>
      let evCursor := if hasC then [Effect.cursorStd] else []
      let evRedraw := if hasC then [Effect.regionRedraw] else []
      (s2, evCursor ++ evRedraw)
  else
    (s, [])

/-- `wm_manipulatormap_highlight_get`. -/
def wm_manipulatormap_highlight_get (s : MMap) : Option Nat :=
  s.highlight

/-- The request `(mpr, part)` equals the current highlight target. -/
def highlightNoOp (s : MMap) (mpr : Option Nat) (part : Nat) : Prop :=
  mpr = s.highlight ∧ ∀ i, mpr = some i → part = (s.manips i).highlight_part

instance (s : MMap) (mpr : Option Nat) (part : Nat) :
    Decidable (highlightNoOp s mpr part) :=
  match mpr with
  | none => decidable_of_iff (none = s.highlight) (by unfold highlightNoOp; simp)
  | some i => decidable_of_iff
      (some i = s.highlight ∧ part = (s.manips i).highlight_part)
      (by unfold highlightNoOp; simp)

/-- At most one manipulator of the pool carries the highlight state bit, and
it is the one stored in the map's highlight slot. -/
def atMostOneHighlight (s : MMap) : Prop :=
  ∀ j, j < s.nmanips → (s.manips j).state.highlight = true → s.highlight = some j

instance (s : MMap) : Decidable (atMostOneHighlight s) := by
  unfold atMostOneHighlight; infer_instance

/-! ## Modal -/

/-- Setting the modal state bit (`mpr->state |= WM_MANIPULATOR_STATE_MODAL`). -/
def setModalBit (m : Manipulator) : Manipulator :=
  { m with state := { m.state with modal := true } }

/-- Clearing the modal state bit and releasing the interaction data
(`mpr->state &= ~WM_MANIPULATOR_STATE_MODAL; MEM_SAFE_FREE(mpr->interaction_data)`). -/
def modalRollback (m : Manipulator) : Manipulator :=
  { m with state := { m.state with modal := false }, interaction_data := false }

/-- The map state right after the activation writes of
`wm_manipulatormap_modal_set` (modal state bit set, modal slot stored) and
before the bound operator is invoked. -/
def modalActivate (s : MMap) (i : Nat) : MMap :=
  { updateManip s i setModalBit with modal := some i }

/-- `wm_manipulatormap_modal_set(mmap, C, event, mpr)`.  `hasC` is whether `C`
is non-null; `opInvoke` is the external operator-invocation collaborator
(`WM_operator_name_call_ptr`), which may re-entrantly mutate the map (for
instance clear the modal slot when the operator runs to completion or is
rejected).  The event argument only flows into the recorded callback
invocations and is omitted. -/
def wm_manipulatormap_modal_set (s : MMap) (hasC : Bool) (mpr : Option Nat)
    (opInvoke : MMap → MMap) : MMap × List Effect :=
  match mpr, hasC with
  | some i, true =>
    let s1 := modalActivate s i
    let m := s1.manips i
    let evInvoke :=
      if m.has_invoke && (m.has_modal || m.has_custom_modal) then
        [Effect.invokeHook i]
      else []
    if m.op_data_type then
      let s2 := opInvoke s1
      if s2.modal = none then
        -- failed to hook the manipulator to the operator handler, roll back
        (updateManip s2 i modalRollback, evInvoke ++ [Effect.operatorCall i])
      else
        (s2, evInvoke ++ [Effect.operatorCall i])
    else
      (s1, evInvoke ++ [Effect.grabEnable])
  | _, _ =>
    let s1 := match s.modal with
      | some j => updateManip s j modalRollback
      | none => s
    let s2 := { s1 with modal := none }
    let evs := if hasC then
        [Effect.grabDisable, Effect.regionRedraw, Effect.mousemoveAdd]
      else []
    (s2, evs)

/-- `wm_manipulatormap_modal_get`. -/
def wm_manipulatormap_modal_get (s : MMap) : Option Nat :=
  s.modal

/-! ## Selection -/

/-- `wm_manipulatormap_selected_clear`: free the selected array, zero the
length. -/
def wm_manipulatormap_selected_clear (s : MMap) : MMap :=
  { s with selected := none, selected_len := 0 }

/-- `WM_manipulatormap_is_any_selected`. -/
def WM_manipulatormap_is_any_selected (s : MMap) : Bool :=
  s.selected_len != 0

/-- `WM_manipulatormap_manipulator_hash_new`: collect the manipulators of all
groups whose type poll passes, filtered by hidden-ness and the given poll.
The C function returns a GHash keyed by manipulator name; it is embedded as
the traversal-order list of collected ids (the hash only serves as an
iterable collection with a size). -/
def WM_manipulatormap_manipulator_hash_new (s : MMap) (poll : MMap → Nat → Bool)
    (include_hidden : Bool) : List Nat :=
  (s.groups.map (fun g =>
    if (match g.poll with | none => true | some b => b) then
      g.manipulators.filter (fun i =>
        (include_hidden || !(s.manips i).flag_hidden) && poll s i)
    else [])).flatten

/-- `manipulator_selectable_poll`: the owning group type carries the
selectable flag. -/
def manipulator_selectable_poll (s : MMap) (i : Nat) : Bool :=
  (s.groups.getD (s.manips i).parent_mgroup default).flag_select

/-- The deselect loop of `wm_manipulatormap_deselect_all`: clear the selection
state bit of every listed manipulator (the slot nulling is subsumed by the
subsequent `selected_clear`). -/
def deselectLoop : MMap → List Nat → MMap
  | s, [] => s
  | s, i :: rest =>
    deselectLoop
      (updateManip s i (fun m =>
        { m with state := { m.state with select := false } })) rest

/-- `wm_manipulatormap_deselect_all(mmap, sel)` with `sel` the map's own
selected array: no change when the array pointer is NULL or the tracked
length is zero, else clear every listed selection bit and reset. -/
def wm_manipulatormap_deselect_all (s : MMap) : MMap × Bool :=
  match s.selected with
  | none => (s, false)
  | some sel =>
    if s.selected_len = 0 then (s, false)
    else
      (wm_manipulatormap_selected_clear
        (deselectLoop s (sel.take s.selected_len)), true)

/-- The `GHASH_ITER_INDEX` loop of `wm_manipulatormap_select_all_intern`:
record whether any manipulator was newly selected, set each selection bit,
and invoke the optional select callback. -/
def selectLoop : MMap → List Nat → Bool → List Effect → MMap × Bool × List Effect
  | s, [], changed, evs => (s, changed, evs)
  | s, i :: rest, changed, evs =>
    let changed2 := changed || !(s.manips i).state.select
    let evs2 := evs ++ (if (s.manips i).has_select then [Effect.selectHook i] else [])
    selectLoop
      (updateManip s i (fun m =>
        { m with state := { m.state with select := true } }))
      rest changed2 evs2

/-- `wm_manipulatormap_select_all_intern`: collect the selectable
manipulators (hidden ones included, `include_hidden = true` in the source),
reallocate the selected array to that size, select them all, then highlight
`(*sel)[0]` with that manipulator's own current highlight part.  The final
step reads element 0 of the reallocated array unguarded; a collection of
length zero makes that read undefined, embedded as `none`. -/
def wm_manipulatormap_select_all_intern (s : MMap) (hasC : Bool) :
    Option (MMap × Bool × List Effect) :=
  let collected := WM_manipulatormap_manipulator_hash_new s manipulator_selectable_poll true
  let s1 := { s with selected_len := collected.length, selected := some collected }
  let r := selectLoop s1 collected false []
  match collected with
  | [] => none
  | first :: _ =>
    let r2 := wm_manipulatormap_highlight_set r.1 hasC (some first)
      ((r.1.manips first).highlight_part)
    some (r2.1, r.2.1, r.2.2 ++ r2.2)

/-- The `action` argument of `WM_manipulatormap_select_all` (`SEL_SELECT` /
`SEL_DESELECT`; the remaining actions hit `BLI_assert(0)` and are excluded
from the embedding). -/
inductive SelAction where
  | SELECT
  | DESELECT
deriving DecidableEq, Repr

/-- `WM_manipulatormap_select_all(C, mmap, action)`: dispatch on the action
and add a synthetic mousemove event whenever the selection changed. -/
def WM_manipulatormap_select_all (s : MMap) (hasC : Bool) (action : SelAction) :
    Option (MMap × Bool × List Effect) :=
  match action with
  | .SELECT =>
    (wm_manipulatormap_select_all_intern s hasC).map (fun r =>
      (r.1, r.2.1, r.2.2 ++ (if r.2.1 then [Effect.mousemoveAdd] else [])))
  | .DESELECT =>
    let r := wm_manipulatormap_deselect_all s
    some (r.1, r.2, if r.2 then [Effect.mousemoveAdd] else [])

/-- The sequence `select_all(SELECT)` then `select_all(DESELECT)` on the same
map, the composite of claim C6; undefined as soon as the first step is. -/
def selectThenDeselect (s : MMap) (hasC : Bool) :
    Option (MMap × Bool × List Effect) :=
  (WM_manipulatormap_select_all s hasC .SELECT).bind
    (fun r => WM_manipulatormap_select_all r.1 hasC .DESELECT)

/-! ## Draw preparation -/

/-- `manipulator_prepare_drawing(mmap, mpr, C, draw_manipulators)`: classify
one manipulator; update-visible manipulators get an update call (forced when
the map refresh flag is set), draw-visible ones are prepended to the draw
list.  Returns the extended draw list, the recorded update call, and whether
the manipulator was visible at all. -/
def manipulator_prepare_drawing (s : MMap) (i : Nat) (dl : List Nat)
    (evs : List Effect) : List Nat × List Effect × Bool :=
  let do_draw := (s.manips i).visible_result
  if do_draw = 0 then
    (dl, evs, false)
  else
    let evs2 :=
      if do_draw &&& WM_MANIPULATOR_IS_VISIBLE_UPDATE ≠ 0 then
        evs ++ [Effect.manipUpdateEv i ((s.update_flag &&& MANIPULATORMAP_REFRESH) ≠ 0)]
      else evs
    let dl2 :=
      if do_draw &&& WM_MANIPULATOR_IS_VISIBLE_DRAW ≠ 0 then i :: dl else dl
    (dl2, evs2, true)

/-- The per-group body of the full traversal of
`manipulatormap_prepare_drawing`: drawstep filter, group visibility poll,
lazy one-time initialization, refresh when the map is tagged, draw-prepare,
then per-manipulator classification.  `gi` numbers the groups for the
recorded callback invocations. -/
def prepareGroups (s : MMap) (drawstep : Int) :
    List MGroup → Nat → List Nat → List Effect → List Nat × List Effect
  | [], _, dl, evs => (dl, evs)
  | g :: gs, gi, dl, evs =>
    if !(g.visible_in_step drawstep) || !(match g.poll with | none => true | some b => b) then
      prepareGroups s drawstep gs (gi + 1) dl evs
    else
      let evs1 := evs ++ [Effect.groupInitEv gi]
      let evs2 :=
        if (s.update_flag &&& MANIPULATORMAP_REFRESH) ≠ 0 && g.has_refresh then
          evs1 ++ [Effect.groupRefreshEv gi]
        else evs1
      let evs3 := if g.has_draw_prepare then evs2 ++ [Effect.groupDrawPrepareEv gi] else evs2
      let r := g.manipulators.foldl
        (fun (acc : List Nat × List Effect) i =>
          let r1 := manipulator_prepare_drawing s i acc.1 acc.2
          (r1.1, r1.2.1))
        (dl, evs3)
      prepareGroups s drawstep gs (gi + 1) r.1 r.2

/-- `manipulatormap_prepare_drawing(mmap, C, draw_manipulators, drawstep)`:
early return on an empty map; when a modal manipulator exists and its group
type does not request draw-all-while-modal, update/draw only that manipulator
(tagging the map updated only when it was visible) and return; otherwise run
the full traversal and tag the map updated. -/
def manipulatormap_prepare_drawing (s : MMap) (drawstep : Int) :
    MMap × List Nat × List Effect :=
  if s.groups.isEmpty then
    (s, [], [])
  else
    let full : MMap × List Nat × List Effect :=
      let r := prepareGroups s drawstep s.groups 0 [] []
      (manipulatormap_tag_updated s, r.1, r.2)
    match s.modal with
    | some i =>
      if !(s.groups.getD (s.manips i).parent_mgroup default).flag_draw_modal_all then
        let r := manipulator_prepare_drawing s i [] []
        (if r.2.2 then manipulatormap_tag_updated s else s, r.1, r.2.1)
      else full
    | none => full

/-- `WM_manipulatormap_draw`: prepare, then draw the assembled list.  The
draw phase (`manipulators_draw_list`) changes no map state: it only toggles
GL depth-test state, invokes the draw callbacks and frees the list, which is
recorded as one draw effect per listed manipulator, in list order. -/
def WM_manipulatormap_draw (s : MMap) (drawstep : Int) : MMap × List Effect :=
  let r := manipulatormap_prepare_drawing s drawstep
  (r.1, r.2.2 ++ r.2.1.map Effect.drawManip)

/-! ## 3D picking and hit testing -/

/-- Oracle for the external GPU selection collaborator, per hotspot radius:
`active` is `GPU_select_query_check_active()`; `hits` the hit count returned
by `GPU_select_end` for the first GPU pass over the rect of the given radius;
`buffer_near1` / `buffer_near2` the encoded id `GPU_select_buffer_near(...)[3]`
(`none` when no nearest hit) of the buffer after one, respectively after the
second, GPU selection pass over that rect.  The pointer-relative rect
construction lives in the oracle's radius argument. -/
structure GPUSelect where
  active : Bool
  hits : ℚ → Int
  buffer_near1 : ℚ → Option Nat
  buffer_near2 : ℚ → Option Nat

/-- `manipulator_find_intersected_3d_intern(visible_manipulators, C, co,
hotspot)`: one render-and-pick over the hotspot rect.  When the backend
supports query passes and the first GPU pass had hits, a second GPU selection
pass re-renders the same rect and its buffer wins.  Returns the encoded hit
(`none` embedding the C return of -1) and whether that internal second GPU
pass ran. -/
def manipulator_find_intersected_3d_intern (o : GPUSelect) (hotspot : ℚ) :
    Option Nat × Bool :=
  let do_passes := o.active
  let hits := o.hits hotspot
  let second := do_passes && hits > 0
  ((if second then o.buffer_near2 hotspot else o.buffer_near1 hotspot), second)

/-- `manipulator_find_intersected_3d(C, co, visible_manipulators, r_part)`:
two-pass picking with `hotspot = 14.0`; first at `0.5f * hotspot`, and on a
hit a tighter re-run at `0.2f * hotspot` whose hit, if any, overrides.  The
winning encoded id packs the candidate index in the high bits and the part in
the low 8 bits (`BLI_findlink(ret >> 8)`, `ret & 255`); an out-of-range index
would dereference NULL in C and yields `none` here.  The float radii are
embedded as exact rationals.  Also returns the trace of hotspot radii the
picking was run at. -/
def manipulator_find_intersected_3d (o : GPUSelect) (visible : List Nat) :
    Option Nat × Nat × List ℚ :=
  let hotspot : ℚ := 14
  let ret := (manipulator_find_intersected_3d_intern o ((1/2 : ℚ) * hotspot)).1
  match ret with
  | none => (none, 0, [(1/2 : ℚ) * hotspot])
  | some r =>
    let retsec := (manipulator_find_intersected_3d_intern o ((1/5 : ℚ) * hotspot)).1
    let r2 := retsec.getD r
    (visible.get? (r2 / 256), r2 % 256, [(1/2 : ℚ) * hotspot, (1/5 : ℚ) * hotspot])

/-- Modelled from the spec: `wm_manipulatorgroup_is_visible` (a function of
this repository outside src/) — the group visibility predicate, its optional
poll callback's answer. -/
def wm_manipulatorgroup_is_visible (g : MGroup) : Bool :=
  match g.poll with | none => true | some b => b

/-- Modelled from the spec: `wm_manipulatorgroup_intersectable_manipulators_to_list`
(outside src/) — collect the group's visible (non-hidden) manipulators for 3D
picking, in group-internal order. -/
def wm_manipulatorgroup_intersectable_manipulators_to_list (s : MMap) (g : MGroup) :
    List Nat :=
  g.manipulators.filter (fun i => !(s.manips i).flag_hidden)

/-- Modelled from the spec: `wm_manipulatorgroup_find_intersected_mainpulator`
(outside src/) — the group's own 2D intersection test, answered by the
group's `test2d` oracle field. -/
def wm_manipulatorgroup_find_intersected_mainpulator (g : MGroup) :
    Option (Nat × Nat) :=
  g.test2d

/-- The group loop of `wm_manipulatormap_highlight_find`: visible 3D groups
contribute their intersectable manipulators to the candidate list; the first
visible non-3D group whose own intersection test hits breaks out of the loop
with that hit.  Returns the 2D hit (if the loop broke) and the 3D candidates
collected up to that point. -/
def highlightFindScan (s : MMap) :
    List MGroup → List Nat → Option (Nat × Nat) × List Nat
  | [], acc => (none, acc)
  | g :: gs, acc =>
    if wm_manipulatorgroup_is_visible g then
      if g.flag_is_3d then
        highlightFindScan s gs (acc ++ wm_manipulatorgroup_intersectable_manipulators_to_list s g)
      else
        match wm_manipulatorgroup_find_intersected_mainpulator g with
        | some hit => (some hit, acc)
        | none => highlightFindScan s gs acc
    else
      highlightFindScan s gs acc

/-- `wm_manipulatormap_highlight_find(mmap, C, event, r_part)`: run the group
loop; then, whenever the 3D candidate list is non-empty, run the 3D pick and
store its result into `mpr` and `*r_part` — overwriting whatever the loop
found.  The part defaults to 0 when nothing wrote it. -/
def wm_manipulatormap_highlight_find (s : MMap) (o : GPUSelect) : Option Nat × Nat :=
  let r := highlightFindScan s s.groups []
  if r.2 ≠ [] then
    let r3 := manipulator_find_intersected_3d o r.2
    (r3.1, r3.2.1)
  else
    match r.1 with
    | some (i, part) => (some i, part)
    | none => (none, 0)

/-! ## Deferred type-registration updates -/

/-- Per-map-type and per-group-type update flags
(`WM_MANIPULATORMAPTYPE_UPDATE_INIT` / `_KEYMAP_INIT` / `_UPDATE_REMOVE`),
one Boolean per bit.  Modelled from the spec: the numeric bit values live in
a header outside src/; the source tests a map type's remove bit with the
global remove constant, so the two are embedded as the same field. -/
structure TypeUpdateFlag where
  update_init : Bool := false
  keymap_init : Bool := false
  update_remove : Bool := false
deriving DecidableEq, Repr

/-- The global `wm_mmap_type_update_flag` bits
(`WM_MANIPULATORMAPTYPE_GLOBAL_UPDATE_INIT` / `_REMOVE`). -/
structure GlobalUpdateFlag where
  update_init : Bool := false
  update_remove : Bool := false
deriving DecidableEq, Repr

/-- `wmManipulatorMapType`: identity, per-type update flags and the ordered
group-type refs (group types identified by ids into `wgt_flag`). -/
structure MMapType where
  spaceid : Int := 0
  regionid : Int := 0
  type_update_flag : TypeUpdateFlag := {}
  grouptype_refs : List Nat := []
deriving DecidableEq, Repr

/-- The process-wide state touched by `WM_manipulatorconfig_update`: the
registered map types, the per-group-type update flags, and the global flag. -/
structure ConfigState where
  types : List MMapType := []
  wgt_flag : Nat → TypeUpdateFlag := fun _ => {}
  global_flag : GlobalUpdateFlag := {}

instance : Inhabited ConfigState := ⟨{}⟩

/-- The external registration work dispatched by the flush:
`WM_manipulatormaptype_group_unlink`,
`WM_manipulatormaptype_group_init_runtime_keymap`,
`WM_manipulatormaptype_group_init_runtime`. -/
inductive UpdateEvent where
  | unlink (spaceid regionid : Int) (wgt : Nat)
  | keymapInit (wgt : Nat)
  | runtimeInit (spaceid regionid : Int) (wgt : Nat)
deriving DecidableEq, Repr

/-- Whether an update event is an unlink (removal) event. -/
def UpdateEvent.isUnlink : UpdateEvent → Bool
  | .unlink _ _ _ => true
  | _ => false

/-- The removal block of `WM_manipulatorconfig_update`: every map type whose
remove bit is set has that bit cleared and all of its group-type refs
unlinked (the walk takes no per-ref flag into account).  The unlink's own
effect on live maps is external and recorded as an event; Modelled from the
spec, it detaches the ref from the type. -/
def configRemoveTypes : List MMapType → List MMapType × List UpdateEvent
  | [] => ([], [])
  | t :: rest =>
    let r := configRemoveTypes rest
    if t.type_update_flag.update_remove then
      ({ t with type_update_flag := { t.type_update_flag with update_remove := false },
                grouptype_refs := [] } :: r.1,
       t.grouptype_refs.map (fun wgt => UpdateEvent.unlink t.spaceid t.regionid wgt) ++ r.2)
    else
      (t :: r.1, r.2)

/-- The per-ref init walk of `WM_manipulatorconfig_update`: for each
group-type ref, build the runtime keymap when its keymap-init bit is set, and
run the runtime initializer when its update-init bit is set, clearing each
bit as it is consumed.  The group-type flags are shared across map types and
threaded through. -/
def configInitRefs (t : MMapType) (w : Nat → TypeUpdateFlag) :
    List Nat → (Nat → TypeUpdateFlag) × List UpdateEvent
  | [] => (w, [])
  | wgt :: rest =>
    let f := w wgt
    let kRun := f.keymap_init
    let w1 : Nat → TypeUpdateFlag :=
      if kRun then
        fun x => if x = wgt then { w x with keymap_init := false } else w x
      else w
    let iRun := (w1 wgt).update_init
    let w2 : Nat → TypeUpdateFlag :=
      if iRun then
        fun x => if x = wgt then { w1 x with update_init := false } else w1 x
      else w1
    let r := configInitRefs t w2 rest
    (r.1,
     (if kRun then [UpdateEvent.keymapInit wgt] else []) ++
     (if iRun then [UpdateEvent.runtimeInit t.spaceid t.regionid wgt] else []) ++ r.2)

/-- The init block of `WM_manipulatorconfig_update`: every map type carrying
an update-init or keymap-init bit has both bits cleared and its refs walked. -/
def configInitTypes (w : Nat → TypeUpdateFlag) :
    List MMapType → (Nat → TypeUpdateFlag) × List MMapType × List UpdateEvent
  | [] => (w, [], [])
  | t :: rest =>
    if t.type_update_flag.update_init || t.type_update_flag.keymap_init then
      let t2 := { t with type_update_flag :=
        { t.type_update_flag with update_init := false, keymap_init := false } }
      let rRefs := configInitRefs t w t.grouptype_refs
      let r := configInitTypes rRefs.1 rest
      (r.1, t2 :: r.2.1, rRefs.2 ++ r.2.2)
    else
      let r := configInitTypes w rest
      (r.1, t :: r.2.1, r.2.2)

/-- `WM_manipulatorconfig_update(bmain)`: no-op when the host runs headless
(`G.background`) or the global update flag is zero; otherwise first drain all
pending removals across all types, then all pending inits, clearing the
global bits as each block is consumed. -/
def WM_manipulatorconfig_update (background : Bool) (st : ConfigState) :
    ConfigState × List UpdateEvent :=
  if background then (st, [])
  else if st.global_flag = {} then (st, [])
  else
    let rRem :=
      if st.global_flag.update_remove then configRemoveTypes st.types
      else (st.types, [])
    let g1 :=
      if st.global_flag.update_remove then
        { st.global_flag with update_remove := false }
      else st.global_flag
    let rInit :=
      if g1.update_init then configInitTypes st.wgt_flag rRem.1
      else (st.wgt_flag, rRem.1, [])
    let g2 := if g1.update_init then { g1 with update_init := false } else g1
    ({ types := rInit.2.1, wgt_flag := rInit.1, global_flag := g2 },
     rRem.2 ++ rInit.2.2)

/-- `WM_manipulatorconfig_update_tag_init`: tag the map type and group type
for init and keymap-init on next use, and raise the global init bit. -/
def WM_manipulatorconfig_update_tag_init (st : ConfigState) (ti wgt : Nat) :
    ConfigState :=
  { st with
    types := st.types.mapIdx (fun j t =>
      if j = ti then
        { t with type_update_flag :=
          { t.type_update_flag with update_init := true, keymap_init := true } }
      else t),
    wgt_flag := fun x =>
      if x = wgt then
        { st.wgt_flag x with update_init := true, keymap_init := true }
      else st.wgt_flag x,
    global_flag := { st.global_flag with update_init := true } }

/-- `WM_manipulatorconfig_update_tag_remove`: tag the map type and group type
for removal, and raise the global remove bit. -/
def WM_manipulatorconfig_update_tag_remove (st : ConfigState) (ti wgt : Nat) :
    ConfigState :=
  { st with
    types := st.types.mapIdx (fun j t =>
      if j = ti then
        { t with type_update_flag :=
          { t.type_update_flag with update_remove := true } }
      else t),
    wgt_flag := fun x =>
      if x = wgt then { st.wgt_flag x with update_remove := true }
      else st.wgt_flag x,
    global_flag := { st.global_flag with update_remove := true } }

/-! ## Concrete instances used in counterexamples and witnesses -/

/-- A map whose first group is 3D with one intersectable manipulator (id 0)
and whose second group is 2D with an always-hitting intersection test on
manipulator 1, part 3. -/
def c1Map : MMap :=
  { nmanips := 2,
    manips := fun i =>
      if i = 0 then { name := "a", parent_mgroup := 0 }
      else { name := "b", parent_mgroup := 1 },
    groups :=
      [{ manipulators := [0], flag_is_3d := true },
       { manipulators := [1], test2d := some (1, 3) }] }

/-- A GPU selection oracle that never reports a hit. -/
def gpuMiss : GPUSelect :=
  { active := false, hits := fun _ => 0,
    buffer_near1 := fun _ => none, buffer_near2 := fun _ => none }

/-- A map with a draw-visible modal manipulator whose group type does not
request draw-all-while-modal, and the refresh flag pending. -/
def c2Map : MMap :=
  { nmanips := 1,
    manips := fun _ =>
      { visible_result := WM_MANIPULATOR_IS_VISIBLE_DRAW, parent_mgroup := 0 },
    groups := [{ manipulators := [0] }],
    modal := some 0,
    update_flag := MANIPULATORMAP_REFRESH }

/-- A GPU selection oracle whose backend does not support query passes but
whose single-pass buffer always holds a nearest hit. -/
def gpuNoPassesHit : GPUSelect :=
  { active := false, hits := fun _ => 1,
    buffer_near1 := fun _ => some 0, buffer_near2 := fun _ => none }

/-- A map with one visible manipulator whose group is not selectable: the
select-all collection is empty. -/
def noSelectableMap : MMap :=
  { nmanips := 1, manips := fun _ => { parent_mgroup := 0 },
    groups := [{ manipulators := [0], flag_select := false }] }

/-- A map with exactly one selectable manipulator (id 0). -/
def oneSelectableMap : MMap :=
  { nmanips := 1, manips := fun _ => { parent_mgroup := 0 },
    groups := [{ manipulators := [0], flag_select := true }] }

/-- A map whose manipulator 0 is highlighted with part 5. -/
def hlMap : MMap :=
  { nmanips := 2,
    manips := fun i =>
      if i = 0 then { state := { highlight := true }, highlight_part := 5 }
      else {},
    highlight := some 0 }

/-- A map whose manipulator 0 carries a bound operator descriptor. -/
def modalOpMap : MMap :=
  { nmanips := 1, manips := fun _ => { op_data_type := true } }

/-- An operator invocation that is rejected synchronously: it clears the
modal slot and touches nothing else. -/
def opReject : MMap → MMap :=
  fun s => { s with modal := none }

/-- A map whose manipulator 0 is currently modal with live interaction data. -/
def modalCurMap : MMap :=
  { nmanips := 2,
    manips := fun i =>
      if i = 0 then { state := { modal := true }, interaction_data := true }
      else {},
    modal := some 0 }

/-- A registry with one map type pending removal and one pending init. -/
def cfg1 : ConfigState :=
  { types :=
      [{ spaceid := 1, regionid := 2,
         type_update_flag := { update_remove := true }, grouptype_refs := [7] },
       { spaceid := 1, regionid := 3,
         type_update_flag := { update_init := true, keymap_init := true },
         grouptype_refs := [8] }],
    wgt_flag := fun x =>
      if x = 8 then { update_init := true, keymap_init := true } else {},
    global_flag := { update_init := true, update_remove := true } }

/-- A registry with nothing pending. -/
def cfg0 : ConfigState := {}

/-! ## Helper lemmas -/

theorem MMap_ext {a b : MMap} (h1 : a.nmanips = b.nmanips)
    (h2 : a.manips = b.manips) (h3 : a.groups = b.groups)
    (h4 : a.highlight = b.highlight) (h5 : a.modal = b.modal)
    (h6 : a.selected = b.selected) (h7 : a.selected_len = b.selected_len)
    (h8 : a.update_flag = b.update_flag) : a = b := by
  cases a; cases b
  simp only [MMap.mk.injEq]
  exact ⟨h1, h2, h3, h4, h5, h6, h7, h8⟩

@[simp] theorem updateManip_manips_self (s : MMap) (i : Nat)
    (f : Manipulator → Manipulator) :
    (updateManip s i f).manips i = f (s.manips i) := by
  simp [updateManip]

theorem updateManip_manips_ne (s : MMap) (i : Nat) (f : Manipulator → Manipulator)
    {j : Nat} (h : j ≠ i) : (updateManip s i f).manips j = s.manips j := by
  simp [updateManip, h]

@[simp] theorem updateManip_groups (s : MMap) (i : Nat) (f : Manipulator → Manipulator) :
    (updateManip s i f).groups = s.groups := rfl

@[simp] theorem updateManip_highlight (s : MMap) (i : Nat) (f : Manipulator → Manipulator) :
    (updateManip s i f).highlight = s.highlight := rfl

@[simp] theorem updateManip_modal (s : MMap) (i : Nat) (f : Manipulator → Manipulator) :
    (updateManip s i f).modal = s.modal := rfl

@[simp] theorem updateManip_selected (s : MMap) (i : Nat) (f : Manipulator → Manipulator) :
    (updateManip s i f).selected = s.selected := rfl

@[simp] theorem updateManip_selected_len (s : MMap) (i : Nat) (f : Manipulator → Manipulator) :
    (updateManip s i f).selected_len = s.selected_len := rfl

@[simp] theorem updateManip_nmanips (s : MMap) (i : Nat) (f : Manipulator → Manipulator) :
    (updateManip s i f).nmanips = s.nmanips := rfl

@[simp] theorem updateManip_update_flag (s : MMap) (i : Nat) (f : Manipulator → Manipulator) :
    (updateManip s i f).update_flag = s.update_flag := rfl

theorem updateManip_id (s : MMap) (i : Nat) (f : Manipulator → Manipulator)
    (h : f (s.manips i) = s.manips i) : updateManip s i f = s := by
  apply MMap_ext <;> try rfl
  funext j
  show (if j = i then f (s.manips j) else s.manips j) = s.manips j
  by_cases hj : j = i
  · subst hj; simp [h]
  · simp [hj]

theorem MState_select_true_self (st : MState) (h : st.select = true) :
    { st with select := true } = st := by
  cases st; simp_all

theorem Manip_set_select_true_self (m : Manipulator) (h : m.state.select = true) :
    ({ m with state := { m.state with select := true } }) = m := by
  rw [MState_select_true_self m.state h]

theorem selectLoop_fst_manips :
    ∀ (l : List Nat) (s : MMap) (ch : Bool) (evs : List Effect) (i : Nat),
    ((selectLoop s l ch evs).1).manips i =
      if i ∈ l then
        { s.manips i with state := { (s.manips i).state with select := true } }
      else s.manips i
  | [], s, ch, evs, i => by simp [selectLoop]
  | j :: rest, s, ch, evs, i => by
    simp only [selectLoop]
    rw [selectLoop_fst_manips rest]
    by_cases hij : i = j
    · subst hij
      by_cases hmem : i ∈ rest <;> simp [hmem, updateManip]
    · have : (updateManip s j (fun m =>
          { m with state := { m.state with select := true } })).manips i = s.manips i :=
        updateManip_manips_ne s j _ hij
      by_cases hmem : i ∈ rest <;> simp [hmem, this, List.mem_cons, hij]

theorem selectLoop_fst_fields :
    ∀ (l : List Nat) (s : MMap) (ch : Bool) (evs : List Effect),
    ((selectLoop s l ch evs).1).groups = s.groups ∧
    ((selectLoop s l ch evs).1).highlight = s.highlight ∧
    ((selectLoop s l ch evs).1).modal = s.modal ∧
    ((selectLoop s l ch evs).1).selected = s.selected ∧
    ((selectLoop s l ch evs).1).selected_len = s.selected_len ∧
    ((selectLoop s l ch evs).1).nmanips = s.nmanips ∧
    ((selectLoop s l ch evs).1).update_flag = s.update_flag
  | [], s, ch, evs => by simp [selectLoop]
  | j :: rest, s, ch, evs => by
    simp only [selectLoop]
    exact selectLoop_fst_fields rest _ _ _

theorem selectLoop_already (l : List Nat) (s : MMap) (ch : Bool) (evs : List Effect)
    (h : ∀ i ∈ l, (s.manips i).state.select = true) :
    (selectLoop s l ch evs).1 = s ∧ (selectLoop s l ch evs).2.1 = ch := by
  induction l generalizing s ch evs with
  | nil => simp [selectLoop]
  | cons j rest ih =>
    have hj : (s.manips j).state.select = true := h j (List.mem_cons_self j rest)
    have hupd : updateManip s j (fun m =>
        { m with state := { m.state with select := true } }) = s :=
      updateManip_id s j _ (Manip_set_select_true_self _ hj)
    simp only [selectLoop, hj, Bool.not_true, Bool.or_false, hupd]
    exact ih s ch _ (fun i hi => h i (List.mem_cons_of_mem j hi))

theorem deselectLoop_manips :
    ∀ (l : List Nat) (s : MMap) (i : Nat),
    (deselectLoop s l).manips i =
      if i ∈ l then
        { s.manips i with state := { (s.manips i).state with select := false } }
      else s.manips i
  | [], s, i => by simp [deselectLoop]
  | j :: rest, s, i => by
    simp only [deselectLoop]
    rw [deselectLoop_manips rest]
    by_cases hij : i = j
    · subst hij
      by_cases hmem : i ∈ rest <;> simp [hmem, updateManip]
    · have : (updateManip s j (fun m =>
          { m with state := { m.state with select := false } })).manips i = s.manips i :=
        updateManip_manips_ne s j _ hij
      by_cases hmem : i ∈ rest <;> simp [hmem, this, List.mem_cons, hij]

theorem highlight_set_noop (s : MMap) (hasC : Bool) (mpr : Option Nat) (part : Nat)
    (h : highlightNoOp s mpr part) :
    wm_manipulatormap_highlight_set s hasC mpr part = (s, []) := by
  obtain ⟨h1, h2⟩ := h
  have hd : highlightDiffers s mpr part = false := by
    unfold highlightDiffers
    rcases mpr with _ | n
    · simp [h1]
    · simp [h1, h2 n rfl]
  simp [wm_manipulatormap_highlight_set, hd]

theorem highlightDiffers_false (s : MMap) (mpr : Option Nat) (part : Nat)
    (hd : highlightDiffers s mpr part = false) : highlightNoOp s mpr part := by
  unfold highlightDiffers at hd
  rcases mpr with _ | n
  · simp only [Bool.or_false, bne_eq_false_iff_eq] at hd
    exact ⟨hd, fun i hi => by cases hi⟩
  · simp only [Bool.or_eq_false_iff, bne_eq_false_iff_eq] at hd
    refine ⟨hd.1, fun i hi => ?_⟩
    cases hi
    exact hd.2

theorem highlight_set_manips_proj {α : Type} (F : Manipulator → α)
    (hClear : ∀ m, F (clearHighlightBit m) = F m)
    (hSet : ∀ p m, F (setHighlightBit p m) = F m)
    (s : MMap) (hasC : Bool) (mpr : Option Nat) (part : Nat) (i : Nat) :
    F (((wm_manipulatormap_highlight_set s hasC mpr part).1).manips i) =
      F (s.manips i) := by
  by_cases hd : highlightDiffers s mpr part = true
  · unfold wm_manipulatormap_highlight_set
    simp only [hd, if_true]
    rcases hh : s.highlight with _ | h <;> rcases mpr with _ | n <;>
      simp only [hh] <;> simp only [updateManip] <;>
      (try split_ifs) <;> simp_all [hSet, hClear]
  · rw [highlight_set_noop s hasC mpr part
      (highlightDiffers_false s mpr part (Bool.not_eq_true _ ▸ hd))]

theorem highlight_set_fst_fields (s : MMap) (hasC : Bool) (mpr : Option Nat)
    (part : Nat) :
    ((wm_manipulatormap_highlight_set s hasC mpr part).1).groups = s.groups ∧
    ((wm_manipulatormap_highlight_set s hasC mpr part).1).modal = s.modal ∧
    ((wm_manipulatormap_highlight_set s hasC mpr part).1).selected = s.selected ∧
    ((wm_manipulatormap_highlight_set s hasC mpr part).1).selected_len = s.selected_len ∧
    ((wm_manipulatormap_highlight_set s hasC mpr part).1).nmanips = s.nmanips ∧
    ((wm_manipulatormap_highlight_set s hasC mpr part).1).update_flag = s.update_flag := by
  by_cases hd : highlightDiffers s mpr part = true
  · unfold wm_manipulatormap_highlight_set
    simp only [hd, if_true]
    rcases hh : s.highlight with _ | h <;> rcases mpr with _ | n <;>
      simp [hh, updateManip]
  · rw [highlight_set_noop s hasC mpr part
      (highlightDiffers_false s mpr part (Bool.not_eq_true _ ▸ hd))]
    exact ⟨rfl, rfl, rfl, rfl, rfl, rfl⟩

theorem highlight_set_fst_highlight (s : MMap) (hasC : Bool) (i : Nat) (part : Nat) :
    ((wm_manipulatormap_highlight_set s hasC (some i) part).1).highlight = some i := by
  by_cases hd : highlightDiffers s (some i) part = true
  · unfold wm_manipulatormap_highlight_set
    simp only [hd, if_true]
    rcases hh : s.highlight with _ | h <;> simp [hh, updateManip]
  · have hno := highlightDiffers_false s (some i) part (Bool.not_eq_true _ ▸ hd)
    rw [highlight_set_noop s hasC (some i) part hno]
    exact hno.1.symm

theorem highlight_set_manips_select (s : MMap) (hasC : Bool) (mpr : Option Nat)
    (part : Nat) (i : Nat) :
    ((((wm_manipulatormap_highlight_set s hasC mpr part).1).manips i).state).select =
      ((s.manips i).state).select :=
  highlight_set_manips_proj (fun m => m.state.select) (fun _ => rfl) (fun _ _ => rfl)
    s hasC mpr part i

theorem highlight_set_manips_parent (s : MMap) (hasC : Bool) (mpr : Option Nat)
    (part : Nat) (i : Nat) :
    (((wm_manipulatormap_highlight_set s hasC mpr part).1).manips i).parent_mgroup =
      (s.manips i).parent_mgroup :=
  highlight_set_manips_proj (fun m => m.parent_mgroup) (fun _ => rfl) (fun _ _ => rfl)
    s hasC mpr part i

theorem hash_new_selectable_congr (s t : MMap) (hg : s.groups = t.groups)
    (hp : ∀ i, (s.manips i).parent_mgroup = (t.manips i).parent_mgroup) :
    WM_manipulatormap_manipulator_hash_new s manipulator_selectable_poll true =
      WM_manipulatormap_manipulator_hash_new t manipulator_selectable_poll true := by
  unfold WM_manipulatormap_manipulator_hash_new
  rw [hg]
  congr 1
  apply List.map_congr_left
  intro g _
  by_cases hc : (match g.poll with | none => true | some b => b) = true
  · simp only [hc, if_true]
    apply List.filter_congr
    intro i _
    simp only [Bool.true_or, Bool.true_and]
    unfold manipulator_selectable_poll
    rw [hp i, hg]
  · simp only [Bool.not_eq_true] at hc
    simp [hc]

theorem deselectLoop_fields :
    ∀ (l : List Nat) (s : MMap),
    (deselectLoop s l).groups = s.groups ∧
    (deselectLoop s l).highlight = s.highlight ∧
    (deselectLoop s l).modal = s.modal ∧
    (deselectLoop s l).selected = s.selected ∧
    (deselectLoop s l).selected_len = s.selected_len ∧
    (deselectLoop s l).nmanips = s.nmanips ∧
    (deselectLoop s l).update_flag = s.update_flag
  | [], s => by simp [deselectLoop]
  | j :: rest, s => by
    simp only [deselectLoop]
    exact deselectLoop_fields rest _

theorem selectLoop_changed :
    ∀ (l : List Nat) (s : MMap) (ch : Bool) (evs : List Effect),
    (selectLoop s l ch evs).2.1 =
      (ch || l.any (fun i => !((s.manips i).state).select))
  | [], s, ch, evs => by simp [selectLoop]
  | j :: rest, s, ch, evs => by
    simp only [selectLoop]
    rw [selectLoop_changed rest]
    by_cases hbj : ((s.manips j).state).select = true
    · have hfun : (fun i => !(((updateManip s j (fun m =>
          { m with state := { m.state with select := true } })).manips i).state).select) =
          (fun i => !((s.manips i).state).select) := by
        funext i
        by_cases hij : i = j
        · subst hij; simp [updateManip, hbj]
        · rw [updateManip_manips_ne s j _ hij]
      simp [hbj, hfun, List.any_cons, Bool.or_assoc]
    · simp only [Bool.not_eq_true] at hbj
      simp [hbj, List.any_cons]

theorem deselect_all_of_selected (m : MMap) (sel : List Nat)
    (hsel : m.selected = some sel) (hlen : m.selected_len = sel.length)
    (hne : sel ≠ []) :
    wm_manipulatormap_deselect_all m =
      (wm_manipulatormap_selected_clear (deselectLoop m sel), true) := by
  unfold wm_manipulatormap_deselect_all
  simp only [hsel]
  rw [if_neg (by simp [hlen, hne])]
  rw [hlen, List.take_length]

theorem select_all_select_spec (s : MMap) (hasC : Bool) (a : Nat) (l : List Nat)
    (hcol : WM_manipulatormap_manipulator_hash_new s manipulator_selectable_poll true
      = a :: l) :
    ∃ st ch evs, WM_manipulatormap_select_all s hasC .SELECT = some (st, ch, evs) ∧
      st.selected = some (a :: l) ∧
      st.selected_len = (a :: l).length ∧
      st.groups = s.groups ∧
      st.highlight = some a ∧
      (∀ i, (st.manips i).parent_mgroup = (s.manips i).parent_mgroup) ∧
      (∀ i, ((st.manips i).state).select =
        (if i ∈ a :: l then true else ((s.manips i).state).select)) ∧
      ch = (a :: l).any (fun i => !((s.manips i).state).select) := by
  unfold WM_manipulatormap_select_all wm_manipulatormap_select_all_intern
  simp only [hcol]
  refine ⟨_, _, _, rfl, ?_, ?_, ?_, ?_, ?_, ?_, ?_⟩
  · rw [(highlight_set_fst_fields _ _ _ _).2.2.1,
      (selectLoop_fst_fields _ _ _ _).2.2.2.1]
  · rw [(highlight_set_fst_fields _ _ _ _).2.2.2.1,
      (selectLoop_fst_fields _ _ _ _).2.2.2.2.1]
  · rw [(highlight_set_fst_fields _ _ _ _).1, (selectLoop_fst_fields _ _ _ _).1]
  · exact highlight_set_fst_highlight _ _ _ _
  · intro i
    rw [highlight_set_manips_parent, selectLoop_fst_manips]
    by_cases hmem : i ∈ a :: l <;> simp [hmem]
  · intro i
    rw [highlight_set_manips_select, selectLoop_fst_manips]
    by_cases hmem : i ∈ a :: l <;> simp [hmem]
  · rw [selectLoop_changed]
    simp

/-! ## Claim theorems -/

/-- C5: highlight-set called with the currently highlighted manipulator and
its current part is a no-op with no side effects; otherwise it clears the
previous highlight's state bit and part before installing the new target, so
after every highlight-set call at most one manipulator in the map carries the
highlight state bit. -/
theorem C5_highlight_set_noop_and_unique (s : MMap) (hasC : Bool)
    (mpr : Option Nat) (part : Nat) (hinv : atMostOneHighlight s) :
    (highlightNoOp s mpr part →
      wm_manipulatormap_highlight_set s hasC mpr part = (s, [])) ∧
    atMostOneHighlight (wm_manipulatormap_highlight_set s hasC mpr part).1 ∧
    (∀ h, s.highlight = some h → mpr ≠ some h →
      ((((wm_manipulatormap_highlight_set s hasC mpr part).1).manips h).state.highlight
          = false ∧
       (((wm_manipulatormap_highlight_set s hasC mpr part).1).manips h).highlight_part
          = 0)) := by
  refine ⟨fun h => highlight_set_noop s hasC mpr part h, ?_, ?_⟩
  · by_cases hd : highlightDiffers s mpr part = true
    · unfold wm_manipulatormap_highlight_set
      simp only [hd, if_true]
      rcases hh : s.highlight with _ | h <;> rcases mpr with _ | n <;>
        simp only [hh] <;> intro j hj hbit <;>
        simp only [updateManip] at hj hbit ⊢
      · exact absurd (hinv j hj hbit) (by simp [hh])
      · by_cases hjn : j = n
        · simp [hjn]
        · simp only [hjn, if_false] at hbit
          exact absurd (hinv j hj hbit) (by simp [hh])
      · by_cases hjh : j = h
        · subst hjh
          simp [clearHighlightBit] at hbit
        · simp only [hjh, if_false] at hbit
          have := hinv j hj hbit
          rw [hh] at this
          exact absurd (Option.some_injective _ this.symm) hjh
      · by_cases hjn : j = n
        · simp [hjn]
        · simp only [hjn, if_false] at hbit
          by_cases hjh : j = h
          · subst hjh
            simp [clearHighlightBit] at hbit
          · simp only [hjh, if_false] at hbit
            have := hinv j hj hbit
            rw [hh] at this
            exact absurd (Option.some_injective _ this.symm) hjh
    · rw [highlight_set_noop s hasC mpr part
        (highlightDiffers_false s mpr part (Bool.not_eq_true _ ▸ hd))]
      exact hinv
  · intro h hh hne
    by_cases hd : highlightDiffers s mpr part = true
    · unfold wm_manipulatormap_highlight_set
      simp only [hd, if_true, hh]
      rcases mpr with _ | n
      · simp [updateManip, clearHighlightBit]
      · have hnh : ¬(h = n) := fun e => hne (by rw [e])
        simp [updateManip, hnh, clearHighlightBit]
    · have hno := highlightDiffers_false s mpr part (Bool.not_eq_true _ ▸ hd)
      exact absurd (hno.1.trans hh) hne

/-- C5 witness: the invariant hypothesis holds and is preserved on a concrete
map and call. -/
theorem C5_witness :
    atMostOneHighlight hlMap ∧
    atMostOneHighlight (wm_manipulatormap_highlight_set hlMap true (some 1) 2).1 :=
  ⟨by decide,
   (C5_highlight_set_noop_and_unique hlMap true (some 1) 2 (by decide)).2.1⟩

/-- C6 counterexample: on a map with no selectable manipulator, the
`select_all(SELECT)` step of the SELECT-then-DESELECT sequence already hits
the unguarded element-0 read of the freshly length-0 selected array, so the
sequence does not complete at all — the claim's "for every map" fails. -/
theorem C6_counterexample : selectThenDeselect noSelectableMap true = none := rfl

/-- C6 (amended): on every map with at least one collected selectable
manipulator, `select_all(SELECT)` then `select_all(DESELECT)` completes,
reports a change, returns the selected count to 0, frees the selected array
and clears the selection bit of every collected manipulator; `DESELECT`
reports no change exactly when the selection was already empty. -/
theorem C6_select_then_deselect (s : MMap) (hasC : Bool)
    (hne : WM_manipulatormap_manipulator_hash_new s manipulator_selectable_poll true
      ≠ []) :
    (∃ s2 evs, selectThenDeselect s hasC = some (s2, true, evs) ∧
      s2.selected_len = 0 ∧ s2.selected = none ∧
      ∀ i ∈ WM_manipulatormap_manipulator_hash_new s manipulator_selectable_poll true,
        ((s2.manips i).state).select = false) ∧
    (∀ m : MMap, (wm_manipulatormap_deselect_all m).2 = false ↔
      (m.selected = none ∨ m.selected_len = 0)) := by
  constructor
  · obtain ⟨a, l, hcol⟩ : ∃ a l,
        WM_manipulatormap_manipulator_hash_new s manipulator_selectable_poll true
          = a :: l := by
      rcases hc : WM_manipulatormap_manipulator_hash_new s manipulator_selectable_poll true
        with _ | ⟨a, l⟩
      · exact absurd hc hne
      · exact ⟨a, l, rfl⟩
    obtain ⟨st, ch, evs, hsel_eq, hsel, hlen, _, _, _, _, _⟩ :=
      select_all_select_spec s hasC a l hcol
    have hdesel :
        WM_manipulatormap_select_all st hasC .DESELECT =
          some (wm_manipulatormap_selected_clear (deselectLoop st (a :: l)), true,
            [Effect.mousemoveAdd]) := by
      unfold WM_manipulatormap_select_all
      rw [deselect_all_of_selected st (a :: l) hsel hlen (by simp)]
      simp
    refine ⟨wm_manipulatormap_selected_clear (deselectLoop st (a :: l)),
      [Effect.mousemoveAdd], ?_, rfl, rfl, ?_⟩
    · unfold selectThenDeselect
      rw [hsel_eq]
      simpa using hdesel
    · intro i hi
      rw [hcol] at hi
      show ((deselectLoop st (a :: l)).manips i).state.select = false
      rw [deselectLoop_manips]
      simp [hi]
  · intro m
    unfold wm_manipulatormap_deselect_all
    rcases hm : m.selected with _ | sel
    · simp
    · by_cases hlen : m.selected_len = 0 <;> simp [hlen]

/-- C6 witness: the amended claim at a concrete one-selectable-manipulator
map. -/
theorem C6_witness :
    WM_manipulatormap_manipulator_hash_new oneSelectableMap manipulator_selectable_poll
      true ≠ [] ∧
    (∃ s2 evs, selectThenDeselect oneSelectableMap true = some (s2, true, evs) ∧
      s2.selected_len = 0 ∧ s2.selected = none ∧
      ∀ i ∈ WM_manipulatormap_manipulator_hash_new oneSelectableMap
        manipulator_selectable_poll true, ((s2.manips i).state).select = false) :=
  ⟨by decide, (C6_select_then_deselect oneSelectableMap true (by decide)).1⟩

/-- C7 counterexample: on a map with no selectable manipulator the first
`select_all(SELECT)` call is already undefined (the unguarded element-0 read),
so the claim's "for every map" fails — there is no second call to compare. -/
theorem C7_counterexample :
    WM_manipulatormap_select_all noSelectableMap true .SELECT = none := rfl

/-- C7 (amended): on every map with at least one collected selectable
manipulator, `select_all(SELECT)` is idempotent — the second of two
consecutive calls reports no change while the selected array and tracked
count are identical to after the first call. -/
theorem C7_select_all_select_idempotent (s : MMap) (hasC : Bool)
    (hne : WM_manipulatormap_manipulator_hash_new s manipulator_selectable_poll true
      ≠ []) :
    ∃ s1 ch1 ev1 s2 ev2,
      WM_manipulatormap_select_all s hasC .SELECT = some (s1, ch1, ev1) ∧
      WM_manipulatormap_select_all s1 hasC .SELECT = some (s2, false, ev2) ∧
      s2.selected = s1.selected ∧ s2.selected_len = s1.selected_len := by
  obtain ⟨a, l, hcol⟩ : ∃ a l,
      WM_manipulatormap_manipulator_hash_new s manipulator_selectable_poll true
        = a :: l := by
    rcases hc : WM_manipulatormap_manipulator_hash_new s manipulator_selectable_poll true
      with _ | ⟨a, l⟩
    · exact absurd hc hne
    · exact ⟨a, l, rfl⟩
  obtain ⟨s1, ch1, ev1, heq1, hsel1, hlen1, hg1, _, hp1, hbit1, _⟩ :=
    select_all_select_spec s hasC a l hcol
  have hcol2 :
      WM_manipulatormap_manipulator_hash_new s1 manipulator_selectable_poll true
        = a :: l := by
    rw [hash_new_selectable_congr s1 s hg1 hp1, hcol]
  obtain ⟨s2, ch2, ev2, heq2, hsel2, hlen2, _, _, _, _, hch2⟩ :=
    select_all_select_spec s1 hasC a l hcol2
  have hch2f : ch2 = false := by
    rw [hch2]
    simp only [List.any_eq_false]
    intro i hi
    rw [hbit1 i]
    simp [hi]
  refine ⟨s1, ch1, ev1, s2, ev2, heq1, ?_, ?_, ?_⟩
  · rw [← hch2f]; exact heq2
  · rw [hsel2, hsel1]
  · rw [hlen2, hlen1]

/-- C7 witness: idempotence at a concrete one-selectable-manipulator map. -/
theorem C7_witness :
    WM_manipulatormap_manipulator_hash_new oneSelectableMap manipulator_selectable_poll
      true ≠ [] ∧
    (∃ s1 ch1 ev1 s2 ev2,
      WM_manipulatormap_select_all oneSelectableMap true .SELECT = some (s1, ch1, ev1) ∧
      WM_manipulatormap_select_all s1 true .SELECT = some (s2, false, ev2) ∧
      s2.selected = s1.selected ∧ s2.selected_len = s1.selected_len) :=
  ⟨by decide, C7_select_all_select_idempotent oneSelectableMap true (by decide)⟩

/-- C10: the final highlight step of `wm_manipulatormap_select_all_intern`
reads element 0 of the reallocated selected array unguarded, so the SELECT
path is defined exactly when the collection of selectable manipulators is
non-empty; on a concrete map with no selectable manipulator the error branch
is reached. -/
theorem C10_select_all_intern_requires_selectable (s : MMap) (hasC : Bool) :
    ((wm_manipulatormap_select_all_intern s hasC).isSome ↔
      WM_manipulatormap_manipulator_hash_new s manipulator_selectable_poll true ≠ []) ∧
    wm_manipulatormap_select_all_intern noSelectableMap true = none := by
  constructor
  · unfold wm_manipulatormap_select_all_intern
    rcases hcol : WM_manipulatormap_manipulator_hash_new s manipulator_selectable_poll true
      with _ | ⟨a, l⟩ <;> simp [hcol]
  · rfl

theorem Manip_modal_roundtrip (m : Manipulator) (hb : (m.state).modal = false)
    (hd : m.interaction_data = false) :
    modalRollback (setModalBit m) = m := by
  cases m with
  | mk nm fh st hp idata op hinv hmod hcm hsel hcg cv vr pg =>
    cases st with
    | mk b1 b2 b3 =>
      simp only at hb hd
      subst hb; subst hd
      rfl

/-- C3: modal activation with a bound operator rolls back when the operator
invocation leaves the map's modal slot unpopulated — the modal-state bit is
cleared, the interaction data is released, and (when the map was clean before
activation and the operator only touched the modal slot) the map is exactly
its pre-activation state. -/
theorem C3_modal_set_rollback (s : MMap) (i : Nat) (opInvoke : MMap → MMap)
    (hop : (s.manips i).op_data_type = true)
    (hrej : (opInvoke (modalActivate s i)).modal = none)
    (hmodal : s.modal = none)
    (hbit : ((s.manips i).state).modal = false)
    (hdata : (s.manips i).interaction_data = false)
    (hfr_manips : (opInvoke (modalActivate s i)).manips = (modalActivate s i).manips)
    (hfr_groups : (opInvoke (modalActivate s i)).groups = s.groups)
    (hfr_highlight : (opInvoke (modalActivate s i)).highlight = s.highlight)
    (hfr_selected : (opInvoke (modalActivate s i)).selected = s.selected)
    (hfr_selected_len : (opInvoke (modalActivate s i)).selected_len = s.selected_len)
    (hfr_update : (opInvoke (modalActivate s i)).update_flag = s.update_flag)
    (hfr_nmanips : (opInvoke (modalActivate s i)).nmanips = s.nmanips) :
    ((((wm_manipulatormap_modal_set s true (some i) opInvoke).1).manips i).state).modal
      = false ∧
    (((wm_manipulatormap_modal_set s true (some i) opInvoke).1).manips i).interaction_data
      = false ∧
    (wm_manipulatormap_modal_set s true (some i) opInvoke).1 = s := by
  have hmop : ((modalActivate s i).manips i).op_data_type = true := by
    simp [modalActivate, updateManip, setModalBit, hop]
  have hred : (wm_manipulatormap_modal_set s true (some i) opInvoke).1 =
      updateManip (opInvoke (modalActivate s i)) i modalRollback := by
    unfold wm_manipulatormap_modal_set
    simp only [hmop, if_true, hrej, if_pos]
  refine ⟨by rw [hred]; simp [updateManip, modalRollback],
    by rw [hred]; simp [updateManip, modalRollback], ?_⟩
  rw [hred]
  apply MMap_ext
  · rw [updateManip_nmanips, hfr_nmanips]
  · funext j
    by_cases hj : j = i
    · subst hj
      rw [updateManip_manips_self, hfr_manips]
      have hact : (modalActivate s j).manips j = setModalBit (s.manips j) := by
        simp [modalActivate, updateManip]
      rw [hact]
      exact Manip_modal_roundtrip (s.manips j) hbit hdata
    · rw [updateManip_manips_ne _ _ _ hj, hfr_manips]
      show (updateManip s i setModalBit).manips j = s.manips j
      exact updateManip_manips_ne _ _ _ hj
  · rw [updateManip_groups, hfr_groups]
  · rw [updateManip_highlight, hfr_highlight]
  · rw [updateManip_modal, hrej, hmodal]
  · rw [updateManip_selected, hfr_selected]
  · rw [updateManip_selected_len, hfr_selected_len]
  · rw [updateManip_update_flag, hfr_update]

/-- C3 witness: a concrete operator rejection rolled back to the exact
pre-activation map. -/
theorem C3_witness :
    (wm_manipulatormap_modal_set modalOpMap true (some 0) opReject).1 = modalOpMap :=
  (C3_modal_set_rollback modalOpMap 0 opReject rfl rfl rfl rfl rfl rfl rfl rfl rfl
    rfl rfl rfl).2.2

/-- C9: modal-set with a non-null manipulator but a null context takes the
deactivate branch — the previously modal manipulator (if any) has its modal
bit cleared and its interaction data released, the modal slot is emptied, and
the requested manipulator is not activated. -/
theorem C9_modal_set_null_context_deactivates (s : MMap) (i : Nat)
    (opInvoke : MMap → MMap) :
    ((wm_manipulatormap_modal_set s false (some i) opInvoke).1).modal = none ∧
    (∀ j, s.modal = some j →
      ((((wm_manipulatormap_modal_set s false (some i) opInvoke).1).manips j).state).modal
          = false ∧
      (((wm_manipulatormap_modal_set s false (some i) opInvoke).1).manips j).interaction_data
          = false) ∧
    (s.modal = none →
      (wm_manipulatormap_modal_set s false (some i) opInvoke).1 = { s with modal := none }) := by
  rcases hm : s.modal with _ | j0
  · refine ⟨?_, ?_, ?_⟩
    · unfold wm_manipulatormap_modal_set
      simp [hm]
    · intro j hj
      cases hj
    · intro _
      unfold wm_manipulatormap_modal_set
      simp [hm]
  · refine ⟨?_, ?_, ?_⟩
    · unfold wm_manipulatormap_modal_set
      simp [hm]
    · intro j hj
      cases hj
      constructor
      · unfold wm_manipulatormap_modal_set
        simp [hm, updateManip, modalRollback]
      · unfold wm_manipulatormap_modal_set
        simp [hm, updateManip, modalRollback]
    · intro hj
      cases hj

/-- C9 witness: the deactivation at a concrete map with a live modal
manipulator. -/
theorem C9_witness :
    ((wm_manipulatormap_modal_set modalCurMap false (some 1) opReject).1).modal = none ∧
    ((((wm_manipulatormap_modal_set modalCurMap false (some 1) opReject).1).manips 0).state).modal
      = false :=
  ⟨(C9_modal_set_null_context_deactivates modalCurMap 1 opReject).1,
   ((C9_modal_set_null_context_deactivates modalCurMap 1 opReject).2.1 0 rfl).1⟩

/-- C2 counterexample: on a map whose modal manipulator is draw-visible and
whose group type does not request draw-all-while-modal, the early-return
modal-only path of the draw preparation clears the pending refresh flag
instead of leaving it unchanged. -/
theorem C2_counterexample :
    c2Map.modal = some 0 ∧
    (c2Map.groups.getD ((c2Map.manips 0).parent_mgroup) default).flag_draw_modal_all
      = false ∧
    c2Map.update_flag = MANIPULATORMAP_REFRESH ∧
    (manipulatormap_prepare_drawing c2Map 0).1.update_flag ≠ c2Map.update_flag := by
  decide

/-- C2 (amended): on the early-return modal-only path, the refresh flag is
cleared exactly when the modal manipulator is classified visible; it is left
unchanged only when the modal manipulator is not visible. -/
theorem C2_modal_path_refresh_flag (s : MMap) (drawstep : Int) (i : Nat)
    (hgroups : s.groups.isEmpty = false)
    (hmodal : s.modal = some i)
    (hflag : (s.groups.getD ((s.manips i).parent_mgroup) default).flag_draw_modal_all
      = false) :
    (manipulatormap_prepare_drawing s drawstep).1.update_flag =
      (if (s.manips i).visible_result = 0 then s.update_flag else 0) := by
  unfold manipulatormap_prepare_drawing
  simp only [hgroups, Bool.false_eq_true, if_false, hmodal, hflag, Bool.not_false,
    if_true]
  by_cases hv : (s.manips i).visible_result = 0
  · simp [manipulator_prepare_drawing, hv]
  · simp [manipulator_prepare_drawing, hv, manipulatormap_tag_updated]

/-- C2 witness: the amended flag behavior at the concrete modal map. -/
theorem C2_witness :
    c2Map.groups.isEmpty = false ∧ c2Map.modal = some 0 ∧
    (manipulatormap_prepare_drawing c2Map 0).1.update_flag =
      (if (c2Map.manips 0).visible_result = 0 then c2Map.update_flag else 0) :=
  ⟨by decide, by decide,
   C2_modal_path_refresh_flag c2Map 0 0 (by decide) (by decide) (by decide)⟩

/-- C1: evaluation at the failing input — the second group's own 2D
intersection test hits manipulator 1 (part 3) and the group is visible, yet
`highlight_find` returns no manipulator at all, because the 3D candidates
collected from the earlier 3D group make the unconditional 3D pick overwrite
the 2D hit. -/
theorem C1_highlight_find_code_eval :
    wm_manipulatorgroup_is_visible (c1Map.groups.getD 1 default) = true ∧
    wm_manipulatorgroup_find_intersected_mainpulator (c1Map.groups.getD 1 default)
      = some (1, 3) ∧
    wm_manipulatormap_highlight_find c1Map gpuMiss = (none, 0) := by
  decide

/-- C4 counterexample: with a backend that does not support a refinement
query pass (`active = false`) but a first pass that hits, the tighter-radius
refinement pass still runs — the pick trace records both 7 and 2.8 pixels —
refuting that the refinement pass runs only if the backend supports one. -/
theorem C4_counterexample :
    gpuNoPassesHit.active = false ∧
    (manipulator_find_intersected_3d_intern gpuNoPassesHit ((1/2 : ℚ) * 14)).1
      = some 0 ∧
    (manipulator_find_intersected_3d gpuNoPassesHit [9]).2.2 =
      [(1/2 : ℚ) * 14, (1/5 : ℚ) * 14] ∧
    ((1/5 : ℚ) * 14) = (2.8 : ℚ) := by
  refine ⟨rfl, rfl, rfl, by norm_num⟩

/-- C4 (amended): the first pass runs at 7 px (half the 14 px hotspot);
whenever it hits, the refinement re-runs unconditionally at 2.8 px (40% of
7 px) and its hit, if any, overrides; backend refinement-pass support instead
gates the internal second GPU selection pass within each render-pick call. -/
theorem C4_two_pass_refinement (o : GPUSelect) (visible : List Nat) :
    (∀ h : ℚ, ((manipulator_find_intersected_3d_intern o h).2 = true ↔
      (o.active = true ∧ o.hits h > 0))) ∧
    ((manipulator_find_intersected_3d_intern o ((1/2 : ℚ) * 14)).1 = none →
      manipulator_find_intersected_3d o visible = (none, 0, [(1/2 : ℚ) * 14])) ∧
    (∀ r, (manipulator_find_intersected_3d_intern o ((1/2 : ℚ) * 14)).1 = some r →
      ((manipulator_find_intersected_3d o visible).2.2 =
          [(1/2 : ℚ) * 14, (1/5 : ℚ) * 14] ∧
       (∀ r2, (manipulator_find_intersected_3d_intern o ((1/5 : ℚ) * 14)).1 = some r2 →
         manipulator_find_intersected_3d o visible =
           (visible.get? (r2 / 256), r2 % 256, [(1/2 : ℚ) * 14, (1/5 : ℚ) * 14])) ∧
       ((manipulator_find_intersected_3d_intern o ((1/5 : ℚ) * 14)).1 = none →
         manipulator_find_intersected_3d o visible =
           (visible.get? (r / 256), r % 256, [(1/2 : ℚ) * 14, (1/5 : ℚ) * 14])))) ∧
    ((1/2 : ℚ) * 14 = 7 ∧ (1/5 : ℚ) * 14 = (2/5 : ℚ) * 7) := by
  refine ⟨?_, ?_, ?_, by norm_num, by norm_num⟩
  · intro h
    unfold manipulator_find_intersected_3d_intern
    simp [decide_eq_true_eq]
  · intro hnone
    unfold manipulator_find_intersected_3d
    simp only [hnone]
  · intro r hr
    refine ⟨?_, ?_, ?_⟩
    · unfold manipulator_find_intersected_3d
      simp only [hr]
    · intro r2 hr2
      unfold manipulator_find_intersected_3d
      simp only [hr, hr2, Option.getD_some]
    · intro hr2
      unfold manipulator_find_intersected_3d
      simp only [hr, hr2, Option.getD_none]

/-- C4 witness: the amended two-pass behavior at a concrete oracle. -/
theorem C4_witness :
    (manipulator_find_intersected_3d_intern gpuNoPassesHit ((1/2 : ℚ) * 14)).1
      = some 0 ∧
    (manipulator_find_intersected_3d gpuNoPassesHit [9]).2.2 =
      [(1/2 : ℚ) * 14, (1/5 : ℚ) * 14] :=
  ⟨by decide,
   ((C4_two_pass_refinement gpuNoPassesHit [9]).2.2.1 0 (by decide)).1⟩

theorem mem_ite_singleton {e x : UpdateEvent} {c : Bool}
    (h : e ∈ (if c then [x] else ([] : List UpdateEvent))) : e = x := by
  cases c
  · simp at h
  · simpa using h

theorem configRemoveTypes_unlink (ts : List MMapType) :
    ∀ e ∈ (configRemoveTypes ts).2, e.isUnlink = true := by
  induction ts with
  | nil => intro e he; simp [configRemoveTypes] at he
  | cons t rest ih =>
    intro e he
    unfold configRemoveTypes at he
    by_cases hf : t.type_update_flag.update_remove = true <;> simp [hf] at he
    · rcases he with ⟨wgt, _, rfl⟩ | he
      · rfl
      · exact ih e he
    · exact ih e he

theorem configInitRefs_not_unlink (t : MMapType) :
    ∀ (refs : List Nat) (w : Nat → TypeUpdateFlag),
    ∀ e ∈ (configInitRefs t w refs).2, e.isUnlink = false := by
  intro refs
  induction refs with
  | nil => intro w e he; simp [configInitRefs] at he
  | cons wgt rest ih =>
    intro w e he
    unfold configInitRefs at he
    rcases List.mem_append.1 he with h1 | h2
    · rcases List.mem_append.1 h1 with ha | hb
      · rw [mem_ite_singleton ha]; rfl
      · rw [mem_ite_singleton hb]; rfl
    · exact ih _ e h2

theorem configInitTypes_not_unlink :
    ∀ (ts : List MMapType) (w : Nat → TypeUpdateFlag),
    ∀ e ∈ (configInitTypes w ts).2.2, e.isUnlink = false := by
  intro ts
  induction ts with
  | nil => intro w e he; simp [configInitTypes] at he
  | cons t rest ih =>
    intro w e he
    unfold configInitTypes at he
    by_cases hf : (t.type_update_flag.update_init || t.type_update_flag.keymap_init)
        = true <;> simp only [hf, Bool.false_eq_true, if_true, if_false] at he
    · rcases List.mem_append.1 he with h1 | h2
      · exact configInitRefs_not_unlink t _ _ e h1
      · exact ih _ e h2
    · exact ih _ e he

/-- C8: the deferred-update flush is a no-op when the host runs headless or
the global update flag is zero; when it runs, its dispatched work is a block
of removal unlinks followed by a block of init work — every pending removal
is processed across all types before any pending init runs. -/
theorem C8_config_update_remove_before_init (bg : Bool) (st : ConfigState) :
    (bg = true → WM_manipulatorconfig_update bg st = (st, [])) ∧
    (st.global_flag = {} → WM_manipulatorconfig_update bg st = (st, [])) ∧
    (∃ u v, (WM_manipulatorconfig_update bg st).2 = u ++ v ∧
      (∀ e ∈ u, e.isUnlink = true) ∧ (∀ e ∈ v, e.isUnlink = false)) := by
  refine ⟨?_, ?_, ?_⟩
  · intro h
    subst h
    simp [WM_manipulatorconfig_update]
  · intro h
    simp [WM_manipulatorconfig_update, h]
  · by_cases hbg : bg = true
    · exact ⟨[], [], by simp [WM_manipulatorconfig_update, hbg], by simp, by simp⟩
    · by_cases hz : st.global_flag = {}
      · exact ⟨[], [], by simp [WM_manipulatorconfig_update, hbg, hz], by simp, by simp⟩
      · refine ⟨(if st.global_flag.update_remove then configRemoveTypes st.types
            else (st.types, [])).2,
          (if (if st.global_flag.update_remove then
                { st.global_flag with update_remove := false }
              else st.global_flag).update_init then
            configInitTypes st.wgt_flag
              (if st.global_flag.update_remove then configRemoveTypes st.types
                else (st.types, [])).1
          else (st.wgt_flag,
            (if st.global_flag.update_remove then configRemoveTypes st.types
              else (st.types, [])).1, [])).2.2, ?_, ?_, ?_⟩
        · simp [WM_manipulatorconfig_update, hbg, hz]
        · by_cases hr : st.global_flag.update_remove = true <;> simp [hr]
          exact configRemoveTypes_unlink st.types
        · by_cases hi : (if st.global_flag.update_remove then
              { st.global_flag with update_remove := false }
            else st.global_flag).update_init = true <;> simp [hi]
          exact configInitTypes_not_unlink _ _

/-- C10 witness: the guarded result is defined at a concrete map with one
selectable manipulator. -/
theorem C10_witness :
    (wm_manipulatormap_select_all_intern oneSelectableMap true).isSome = true :=
  (C10_select_all_intern_requires_selectable oneSelectableMap true).1.2 (by decide)

/-- C8 witness: the flush at concrete registries — headless no-op, zero-flag
no-op, and the removal-before-init split. -/
theorem C8_witness :
    WM_manipulatorconfig_update true cfg1 = (cfg1, []) ∧
    WM_manipulatorconfig_update false cfg0 = (cfg0, []) ∧
    (∃ u v, (WM_manipulatorconfig_update false cfg1).2 = u ++ v ∧
      (∀ e ∈ u, e.isUnlink = true) ∧ (∀ e ∈ v, e.isUnlink = false)) :=
  ⟨(C8_config_update_remove_before_init true cfg1).1 rfl,
   (C8_config_update_remove_before_init false cfg0).2.1 rfl,
   (C8_config_update_remove_before_init false cfg1).2.2⟩

end WManip
